import Mathlib

/-!
# Verification of the starter auth/session subsystem

A shallow embedding, in Lean 4, of the security-relevant parts of the Go
repository `mounis-bhat/starter`: the password policy (`internal/domain`,
password file), the sliding-window rate limiter (`internal/ratelimit/valkey.go`),
the session store and lifecycle (`internal/domain`, session service file,
together with the sqlc queries it calls), and the register/login orchestration
(`internal/api`, auth handler file).

Conventions used throughout:
* machine integers become `Int`/`Nat`; timestamps are `Int` milliseconds
  (Go's `time.Time`/`UnixMilli`), durations are `Int` milliseconds;
* the relational store becomes explicit lists of rows threaded through the
  operations; SQL statements become the corresponding list operations;
* fallible Go calls become `Except`/`Option`; external collaborators whose
  outcome is environmental (a failed pipeline `Exec`, a unique-constraint
  violation raced in by a concurrent request, the argon2 verifier) become
  explicit parameters, so every branch of the Go code stays visible;
* Go byte lengths (`len(s)`) become `String.utf8ByteSize`.
-/

set_option autoImplicit false

namespace Starter

/-! ## Password engine (`internal/domain`, password file)

`ValidatePassword` and its helpers `hasUppercase`, `hasNumber`, `hasSpecial`,
`isCommonPassword`, and the `commonPasswords` deny-list, translated rune by
rune from the Go source. -/

/-- ASCII case-lowering of one character: the behaviour of Go's
`strings.ToLower` on the ASCII range (the deny-list is pure ASCII, and on
non-ASCII characters the difference cannot make a lowered string equal to an
ASCII deny-list key). -/
def lowerChar (c : Char) : Char :=
  if 'A' ≤ c ∧ c ≤ 'Z' then Char.ofNat (c.toNat + 32) else c

/-- `strings.ToLower` applied to a whole string (ASCII model, see `lowerChar`). -/
def lowerAscii (s : String) : String :=
  String.mk (s.data.map lowerChar)

/-- Go `hasUppercase`: some rune lies in `'A'..'Z'`. -/
def hasUppercase (value : String) : Bool :=
  value.data.any (fun r => decide ('A' ≤ r ∧ r ≤ 'Z'))

/-- Go `hasNumber`: some rune lies in `'0'..'9'`. -/
def hasNumber (value : String) : Bool :=
  value.data.any (fun r => decide ('0' ≤ r ∧ r ≤ '9'))

/-- Go `hasSpecial`: some rune lies outside `[A-Za-z0-9]`. -/
def hasSpecial (value : String) : Bool :=
  value.data.any (fun r =>
    decide (¬ (('a' ≤ r ∧ r ≤ 'z') ∨ ('A' ≤ r ∧ r ≤ 'Z') ∨ ('0' ≤ r ∧ r ≤ '9'))))

/-- The fixed `commonPasswords` deny-list, exactly the 66 map keys of the Go
source (a Go `map[string]struct\x7b\x7d` used only for membership becomes a list). -/
def commonPasswords : List String :=
  ["Password1!", "Password1@", "Password1#", "Password1$",
   "Password12!", "Password123!", "Welcome1!", "Welcome123!",
   "Welcome2024!", "Welcome2025!", "Qwerty123!", "Qwerty123@",
   "Qwerty123#", "Qwerty123$", "Qwerty12!", "Admin123!",
   "Admin123@", "Admin123#", "Admin123$", "Letmein1!",
   "Letmein123!", "Letmein123@", "Iloveyou1!", "Iloveyou123!",
   "Monk3y123!", "Dragon123!", "Princess1!", "Sunshine1!",
   "Football1!", "Baseball1!", "Starwars1!", "Trustno1!",
   "Shadow123!", "Master123!", "Login123!", "Passw0rd1!",
   "Passw0rd1@", "Passw0rd1#", "C0mputer1!", "C0mputer123!",
   "N1nja123!", "N1nja2024!", "S0ccer123!", "Hockey123!",
   "P@ssw0rd1", "P@ssword1", "P@ssword1!", "P@ssword123!",
   "Ch@ngeMe1!", "Default1!", "TempPass1!", "TempPass2@",
   "Test1234!", "Test12345!", "Welcome12!", "Welcome1234!",
   "Qwerty12@", "Qwerty1234!", "Admin2024!", "Admin2025!",
   "User1234!", "User12345!", "User2024!", "User2025!"]

/-- Go `isCommonPassword`: lower-case the candidate, then look it up in the
deny-list (`candidate := strings.ToLower(value); _, ok := commonPasswords[candidate]`). -/
def isCommonPassword (value : String) : Bool :=
  commonPasswords.contains (lowerAscii value)

/-- `passwordMinLength` from the Go constants. -/
def passwordMinLength : Nat := 8

/-- `passwordMaxLength` from the Go constants. -/
def passwordMaxLength : Nat := 1000

/-- The six policy failures `ValidatePassword` can report, in source order. -/
inductive PasswordError where
  | tooShort
  | tooLong
  | noUppercase
  | noNumber
  | noSpecial
  | tooCommon
  deriving DecidableEq, Repr

/-- The user-facing message of each failure, as the Go `error` strings. -/
def passwordErrorMessage : PasswordError → String
  | .tooShort => "password must be at least 8 characters"
  | .tooLong => "password must be at most 1000 characters"
  | .noUppercase => "password must include an uppercase letter"
  | .noNumber => "password must include a number"
  | .noSpecial => "password must include a special character"
  | .tooCommon => "password is too common"

/-- Go `ValidatePassword`: the first failing rule, or `none` when the password
is accepted. Lengths are byte lengths (`len(value)`). -/
def validatePassword (value : String) : Option PasswordError :=
  if value.utf8ByteSize < passwordMinLength then some .tooShort
  else if passwordMaxLength < value.utf8ByteSize then some .tooLong
  else if !hasUppercase value then some .noUppercase
  else if !hasNumber value then some .noNumber
  else if !hasSpecial value then some .noSpecial
  else if isCommonPassword value then some .tooCommon
  else none

/-! ## Sliding-window rate limiter (`internal/ratelimit/valkey.go`)

`ValkeyLimiter.Allow` runs one pipelined transaction against the per-key
sorted set: `ZADD` of the fresh `(now, nonce)` member, `ZREMRANGEBYSCORE` of
`[0, now-window]`, `ZCARD`, and `EXPIRE window+1s`.  The sorted set of one key
becomes a `List Int` of scores (member nonces are fresh, so `ZADD` is an
append); the `EXPIRE` safety net is not modelled, because any entry it could
ever remove is older than the window and would be removed by the
`ZREMRANGEBYSCORE` of the next call before being counted. -/

/-- The effect of one error-free `Allow` call on a key's sorted set, and the
decision it returns: insert `now`, drop scores in `[0, now-window]`, then
allow iff the remaining count is at most the limit. -/
def valkeyAllowStep (entries : List Int) (now limit window : Int) :
    Bool × List Int :=
  let windowStart := now - window
  let pruned := (entries ++ [now]).filter (fun s => decide (¬ (0 ≤ s ∧ s ≤ windowStart)))
  (decide ((pruned.length : Int) ≤ limit), pruned)

/-- Go `ValkeyLimiter.Allow` with its guards: a nil receiver/client allows
unconditionally, and a failed pipeline `Exec` allows unconditionally
(fail open). `storeErr` models the environment's failure of the store call. -/
def valkeyAllow (clientPresent storeErr : Bool) (entries : List Int)
    (now limit window : Int) : Bool :=
  if !clientPresent then true
  else if storeErr then true
  else (valkeyAllowStep entries now limit window).1

/-- `config.RateLimitRule` (limit, window) as consumed by `allowRequest`. -/
structure RateLimitRule where
  limit : Int
  window : Int
  deriving DecidableEq, Repr

/-- Go `AuthHandler.allowRequest`: unconditional allow when rate limiting is
disabled, when the rule is degenerate (`limit ≤ 0` or `window ≤ 0`), when no
limiter client is configured, or when the limiter call errors; otherwise the
limiter's decision. `limiterAllowed`/`limiterErr` are the two return values of
the `Allow` call. -/
def allowRequest (enabled : Bool) (rule : RateLimitRule)
    (limiterPresent limiterAllowed limiterErr : Bool) : Bool :=
  if !enabled then true
  else if rule.limit ≤ 0 ∨ rule.window ≤ 0 then true
  else if !limiterPresent then true
  else if limiterErr then true
  else limiterAllowed

/-! ## Theorems: password deny-list (C3) -/

/-- Every deny-list entry survives the deny-check: `isCommonPassword` lowers
its candidate before the lookup, but every key of `commonPasswords` contains
upper-case letters, so the lookup can never hit. -/
theorem commonPasswords_never_detected :
    commonPasswords.all (fun k => !isCommonPassword k) = true := by decide

/-- C3: `ValidatePassword("Password123!")` is *accepted* by the code even
though `"Password123!"` is literally on the deny-list: `isCommonPassword`
lower-cases the candidate to `"password123!"` and looks it up in a map whose
keys are all mixed-case, so the case-insensitive deny-list match claimed by
the specification never fires. -/
theorem c3_denyListed_password_accepted :
    validatePassword "Password123!" = none ∧
    "Password123!" ∈ commonPasswords ∧
    isCommonPassword "Password123!" = false := by
  refine ⟨by decide, by decide, by decide⟩

/-! ## Theorems: sliding-window rate limiter (C5, C6) -/

/-- C5: the limiter allows a call iff, after inserting the current call's
entry and pruning entries that have left the window, at most `limit` entries
remain; and the concrete limit-3/window-10s scenario: three calls inside the
window allow, the fourth inside the window is denied (its entry still
recorded), and a call after the window has elapsed allows again. -/
theorem c5_sliding_window_allow :
    (∀ (entries : List Int) (now limit window : Int),
        (∀ e ∈ entries, 0 ≤ e) → 0 ≤ now →
        ((valkeyAllowStep entries now limit window).1 = true ↔
          (((entries ++ [now]).filter (fun s => decide (now - window < s))).length : Int)
            ≤ limit))
    ∧ valkeyAllowStep [] 0 3 10000 = (true, [0])
    ∧ valkeyAllowStep [0] 1000 3 10000 = (true, [0, 1000])
    ∧ valkeyAllowStep [0, 1000] 2000 3 10000 = (true, [0, 1000, 2000])
    ∧ valkeyAllowStep [0, 1000, 2000] 3000 3 10000 = (false, [0, 1000, 2000, 3000])
    ∧ valkeyAllowStep [0, 1000, 2000, 3000] 13500 3 10000 = (true, [13500]) := by
  refine ⟨?_, by decide, by decide, by decide, by decide, by decide⟩
  intro entries now limit window hnn hnow
  have hfeq : (entries ++ [now]).filter (fun s => decide (¬ (0 ≤ s ∧ s ≤ now - window)))
      = (entries ++ [now]).filter (fun s => decide (now - window < s)) := by
    apply List.filter_congr
    intro x hx
    have hx0 : 0 ≤ x := by
      rcases List.mem_append.1 hx with h | h
      · exact hnn x h
      · simp only [List.mem_singleton] at h
        omega
    simp only [decide_eq_decide]
    omega
  simp only [valkeyAllowStep]
  rw [hfeq]
  simp only [decide_eq_true_eq]

/-- Witness for C5's universally quantified part at a concrete input. -/
theorem c5_sliding_window_allow_witness :
    (valkeyAllowStep [0] 5 1 10).1 = true ↔
      (((([0] : List Int) ++ [5]).filter (fun s => decide ((5 : Int) - 10 < s))).length : Int)
        ≤ 1 :=
  c5_sliding_window_allow.1 [0] 5 1 10 (by decide) (by decide)

/-- C6: the limiter fails open — a store error makes `Allow` return true, a
nil limiter/client makes `Allow` return true — and the orchestrator's
`allowRequest` allows unconditionally when rate limiting is disabled, when the
rule's limit or window is non-positive, when no limiter is configured, and
when the limiter call errors. -/
theorem c6_fail_open :
    (∀ (clientPresent : Bool) (entries : List Int) (now limit window : Int),
        valkeyAllow clientPresent true entries now limit window = true)
    ∧ (∀ (storeErr : Bool) (entries : List Int) (now limit window : Int),
        valkeyAllow false storeErr entries now limit window = true)
    ∧ (∀ (rule : RateLimitRule) (lp la le : Bool),
        allowRequest false rule lp la le = true)
    ∧ (∀ (enabled : Bool) (rule : RateLimitRule) (lp la le : Bool),
        rule.limit ≤ 0 ∨ rule.window ≤ 0 → allowRequest enabled rule lp la le = true)
    ∧ (∀ (enabled : Bool) (rule : RateLimitRule) (la le : Bool),
        allowRequest enabled rule false la le = true)
    ∧ (∀ (enabled : Bool) (rule : RateLimitRule) (lp la : Bool),
        allowRequest enabled rule lp la true = true) := by
  refine ⟨?_, ?_, ?_, ?_, ?_, ?_⟩
  · intro cp entries now limit window
    cases cp <;> simp [valkeyAllow]
  · intro se entries now limit window
    simp [valkeyAllow]
  · intro rule lp la le
    simp [allowRequest]
  · intro enabled rule lp la le h
    cases enabled <;> simp [allowRequest, h]
  · intro enabled rule la le
    by_cases h : rule.limit ≤ 0 ∨ rule.window ≤ 0 <;>
      cases enabled <;> simp [allowRequest, h]
  · intro enabled rule lp la
    by_cases h : rule.limit ≤ 0 ∨ rule.window ≤ 0 <;>
      cases enabled <;> cases lp <;> simp [allowRequest, h]

/-- Witness for C6's hypothesis-bearing conjunct (degenerate rule) at a
concrete input. -/
theorem c6_fail_open_witness :
    allowRequest true ⟨0, 5⟩ true false false = true :=
  c6_fail_open.2.2.2.1 true ⟨0, 5⟩ true false false (Or.inl (by decide))

/-! ## Session store (`internal/domain`, session service file, plus the sqlc
queries of `queries.sql` it calls)

Rows of the `users` and `sessions` tables.  UUIDs become `Nat` identifiers,
`TIMESTAMPTZ` becomes `Int` milliseconds, nullable columns become `Option`.
`sessions.expires_at` is `NOT NULL` in the schema and always written by
`CreateSession`, so it is a plain `Int` (the Go `row.ExpiresAt.Valid` guard is
always true); `last_active_at` keeps its `pgtype` valid flag as `Option`
because `ValidateToken` branches on it. -/

/-- A `users` row (the columns the auth flows read and write). -/
structure DbUser where
  id : Nat
  email : String
  emailVerified : Bool
  name : String
  picture : Option String
  passwordHash : Option String
  provider : String
  googleId : Option String
  failedLoginAttempts : Int
  lockedUntil : Option Int
  deriving DecidableEq, Repr

/-- A `sessions` row. -/
structure Session where
  id : Nat
  userId : Nat
  tokenHash : String
  expiresAt : Int
  lastActiveAt : Option Int
  createdAt : Int
  deriving DecidableEq, Repr

/-- `CountUserSessions`: `SELECT COUNT(*) FROM sessions WHERE user_id = $1`. -/
def countUserSessions (rows : List Session) (u : Nat) : Nat :=
  (rows.filter (fun s => s.userId == u)).length

/-- Fold computing the first row with minimal `created_at` (the row `ORDER BY
created_at ASC LIMIT 1` returns; ties resolved by list position). -/
def oldestAux (best : Session) : List Session → Session
  | [] => best
  | r :: rs => oldestAux (if r.createdAt < best.createdAt then r else best) rs

/-- `GetOldestUserSession`: `SELECT * FROM sessions WHERE user_id = $1 ORDER BY
created_at ASC LIMIT 1` (`none` models the no-rows error). -/
def getOldestUserSession (rows : List Session) (u : Nat) : Option Session :=
  match rows.filter (fun s => s.userId == u) with
  | [] => none
  | r :: rs => some (oldestAux r rs)

/-- `DeleteSession`: `DELETE FROM sessions WHERE id = $1`. -/
def deleteSession (rows : List Session) (sid : Nat) : List Session :=
  rows.filter (fun s => s.id != sid)

/-- The eviction loop body of `SessionService.enforceSessionLimit`: while the
user's session count is not below the limit, delete the oldest session and
re-count.  The Go loop is unbounded; `fuel` only bounds the recursion for
Lean and never runs out when it starts at `rows.length + 1` (each iteration
deletes a row, and an empty table always counts below a positive limit) —
see `evictLoop_fuel_irrelevant`. -/
def evictLoop (fuel : Nat) (rows : List Session) (u : Nat) (limit : Nat) :
    List Session :=
  match fuel with
  | 0 => rows
  | fuel + 1 =>
    if countUserSessions rows u < limit then rows
    else
      match getOldestUserSession rows u with
      | none => rows
      | some oldest => evictLoop fuel (deleteSession rows oldest.id) u limit

/-- `SessionService.enforceSessionLimit`: no-op for `limit ≤ 0`, otherwise the
eviction loop. -/
def enforceSessionLimit (rows : List Session) (u : Nat) (limit : Int) :
    List Session :=
  if limit ≤ 0 then rows else evictLoop (rows.length + 1) rows u limit.toNat

/-- `SessionService.CreateSession` (the session cap is hard-coded to 5 at both
call sites): enforce the cap, insert the new row (fresh random token hash,
absolute expiry `now + sessionMaxAge`, `last_active_at` left to its default),
then enforce the cap once more. -/
def createSession (rows : List Session) (u : Nat) (newId : Nat)
    (tokenHash : String) (now maxAge : Int) : List Session :=
  let rows1 := enforceSessionLimit rows u 5
  let newRow : Session :=
    { id := newId, userId := u, tokenHash := tokenHash,
      expiresAt := now + maxAge, lastActiveAt := some now, createdAt := now }
  let rows2 := rows1 ++ [newRow]
  enforceSessionLimit rows2 u 5

/-- The denormalised user columns `GetSessionByTokenHash` joins in. -/
structure SessionUser where
  id : Nat
  email : String
  emailVerified : Bool
  name : String
  picture : Option String
  provider : String
  deriving DecidableEq, Repr

/-- `domain.SessionInfo` as returned by `ValidateToken`. -/
structure SessionInfo where
  id : Nat
  tokenHash : String
  expiresAt : Int
  lastActiveAt : Int
  user : SessionUser
  deriving DecidableEq, Repr

/-- Projection of a `users` row to the joined columns. -/
def toSessionUser (u : DbUser) : SessionUser :=
  { id := u.id, email := u.email, emailVerified := u.emailVerified,
    name := u.name, picture := u.picture, provider := u.provider }

/-- `GetSessionByTokenHash`: `SELECT s.*, u.… FROM sessions s JOIN users u ON
s.user_id = u.id WHERE s.token_hash = $1 AND s.expires_at > NOW()`.  Note the
`expires_at > NOW()` filter: a session whose absolute expiry has passed is
invisible to this query. -/
def getSessionByTokenHash (sessions : List Session) (users : List DbUser)
    (hash : String) (now : Int) : Option (Session × DbUser) :=
  match sessions.find? (fun s => s.tokenHash == hash && decide (now < s.expiresAt)) with
  | none => none
  | some s =>
    match users.find? (fun u => u.id == s.userId) with
    | none => none
    | some u => some (s, u)

/-- `DeleteSessionByTokenHash`: `DELETE FROM sessions WHERE token_hash = $1`. -/
def deleteSessionByTokenHash (sessions : List Session) (hash : String) :
    List Session :=
  sessions.filter (fun s => s.tokenHash != hash)

/-- `UpdateSessionLastActive`: `UPDATE sessions SET last_active_at = NOW()
WHERE id = $1`. -/
def updateSessionLastActive (sessions : List Session) (sid : Nat) (now : Int) :
    List Session :=
  sessions.map (fun s => if s.id == sid then { s with lastActiveAt := some now } else s)

/-- The two failures of `ValidateToken` (`ErrSessionNotFound`,
`ErrSessionExpired`). -/
inductive ValidateError where
  | notFound
  | expired
  deriving DecidableEq, Repr

/-- `SessionService.ValidateToken`.  `hashFn` abstracts the SHA-256 token
digest (`HashToken`); `idleTimeout` is the service's idle timeout.  Returns
the Go result together with the session table after the call's side effects
(the deletion on expiry, the `last_active_at` refresh on success).  A single
clock instant `now` serves the SQL `NOW()` and both Go `time.Now()` calls. -/
def validateToken (hashFn : String → String) (idleTimeout : Int)
    (sessions : List Session) (users : List DbUser) (token : String)
    (now : Int) : Except ValidateError SessionInfo × List Session :=
  if token = "" then (.error .notFound, sessions)
  else
    let tokenHash := hashFn token
    match getSessionByTokenHash sessions users tokenHash now with
    | none => (.error .notFound, sessions)
    | some (row, user) =>
      let lastActiveAt :=
        match row.lastActiveAt with
        | some t => t
        | none => row.createdAt
      if 0 < idleTimeout ∧ lastActiveAt + idleTimeout < now then
        (.error .expired, deleteSessionByTokenHash sessions tokenHash)
      else if row.expiresAt < now then
        (.error .expired, deleteSessionByTokenHash sessions tokenHash)
      else
        (.ok { id := row.id, tokenHash := tokenHash, expiresAt := row.expiresAt,
               lastActiveAt := lastActiveAt, user := toSessionUser user },
         updateSessionLastActive sessions row.id now)

deriving instance DecidableEq for Except

/-! ## Theorems: ValidateToken and absolute expiry (C2) -/

/-- C2 (amended): a token whose session rows have all passed their absolute
expiry fails with `NotFound`, not `Expired`, and nothing is deleted — the
lookup query's `expires_at > NOW()` filter hides such rows from
`ValidateToken`, so its delete-on-expiry side effect never runs for them. -/
theorem c2_absolute_expiry_gives_notFound (hashFn : String → String)
    (idleTimeout : Int) (sessions : List Session) (users : List DbUser)
    (token : String) (now : Int)
    (h : ∀ s ∈ sessions, s.tokenHash = hashFn token → s.expiresAt ≤ now) :
    validateToken hashFn idleTimeout sessions users token now
      = (.error .notFound, sessions) := by
  unfold validateToken
  by_cases ht : token = ""
  · simp [ht]
  · have hfind : sessions.find?
        (fun s => s.tokenHash == hashFn token && decide (now < s.expiresAt)) = none := by
      apply List.find?_eq_none.mpr
      intro s hs
      simp only [Bool.and_eq_true, beq_iff_eq, decide_eq_true_eq, not_and]
      intro hhash
      have := h s hs hhash
      omega
    simp [ht, getSessionByTokenHash, hfind]

/-- Witness for C2's amended theorem at a concrete input: one session, expired
absolutely (`expiresAt = 50 < now = 100`) but recently active
(`lastActive = 90`, idle timeout 30 min). -/
theorem c2_absolute_expiry_gives_notFound_witness :
    validateToken (fun t => t) 1800000 [⟨1, 1, "h", 50, some 90, 0⟩] [] "h" 100
      = (.error .notFound, [⟨1, 1, "h", 50, some 90, 0⟩]) :=
  c2_absolute_expiry_gives_notFound (fun t => t) 1800000
    [⟨1, 1, "h", 50, some 90, 0⟩] [] "h" 100 (by decide)

/-- C2 counterexample to the claim as stated: the session's absolute expiry
has passed (`expiresAt = 50`, `now = 100`) and its idle window has not lapsed
(`lastActive = 90`, idle timeout 30 min), yet `ValidateToken` does not fail
`Expired` and does not delete the row — it fails `NotFound` with the table
untouched. -/
theorem c2_counterexample :
    (validateToken (fun t => t) 1800000 [⟨1, 1, "h", 50, some 90, 0⟩]
        [⟨1, "a@b.c", true, "A", none, none, "credentials", none, 0, none⟩] "h" 100).1
      ≠ .error .expired
    ∧ (validateToken (fun t => t) 1800000 [⟨1, 1, "h", 50, some 90, 0⟩]
        [⟨1, "a@b.c", true, "A", none, none, "credentials", none, 0, none⟩] "h" 100)
      = (.error .notFound, [⟨1, 1, "h", 50, some 90, 0⟩]) := by
  refine ⟨by decide, by decide⟩

/-! ## Theorems: ValidateToken with NULL last_active_at (C10) -/

/-- `find?` returns the unique element satisfying the predicate. -/
theorem find?_eq_some_of_unique {α : Type} (p : α → Bool) (a : α) :
    ∀ l : List α, a ∈ l → p a = true → (∀ x ∈ l, p x = true → x = a) →
      l.find? p = some a := by
  intro l
  induction l with
  | nil => intro ha _ _; cases ha
  | cons b bs ih =>
    intro ha hpa huniq
    by_cases hb : p b = true
    · have hba : b = a := huniq b (List.mem_cons_self b bs) hb
      subst hba
      exact List.find?_cons_of_pos _ hb
    · rw [List.find?_cons_of_neg _ (by simpa using hb)]
      have hab : a ∈ bs := by
        rcases List.mem_cons.mp ha with rfl | hmem
        · exact absurd hpa hb
        · exact hmem
      exact ih hab hpa (fun x hx hpx => huniq x (List.mem_cons_of_mem _ hx) hpx)

/-- C10 (amended): for a session row whose `last_active_at` is NULL and whose
absolute expiry has *not* passed (so the lookup query returns it),
`ValidateToken` measures the idle timeout from `created_at`: it fails
`Expired` and deletes the row exactly when `created_at + idleTimeout` is
before `now`, and on success the returned `SessionInfo.LastActiveAt` is
`created_at`. -/
theorem c10_null_lastActive_uses_createdAt (hashFn : String → String)
    (idleTimeout : Int) (sessions : List Session) (users : List DbUser)
    (token : String) (now : Int) (row : Session) (user : DbUser)
    (htok : token ≠ "")
    (hmem : row ∈ sessions)
    (hhash : row.tokenHash = hashFn token)
    (huniq : ∀ s ∈ sessions, s.tokenHash = hashFn token → s = row)
    (hlive : now < row.expiresAt)
    (hnull : row.lastActiveAt = none)
    (hidle : 0 < idleTimeout)
    (huser : users.find? (fun u => u.id == row.userId) = some user) :
    ((validateToken hashFn idleTimeout sessions users token now).1
        = .error .expired ↔ row.createdAt + idleTimeout < now)
    ∧ (row.createdAt + idleTimeout < now →
        validateToken hashFn idleTimeout sessions users token now
          = (.error .expired, sessions.filter (fun s => s.tokenHash != hashFn token)))
    ∧ (now ≤ row.createdAt + idleTimeout →
        validateToken hashFn idleTimeout sessions users token now
          = (.ok { id := row.id, tokenHash := hashFn token, expiresAt := row.expiresAt,
                   lastActiveAt := row.createdAt, user := toSessionUser user },
             updateSessionLastActive sessions row.id now)) := by
  have hfind : sessions.find?
      (fun s => s.tokenHash == hashFn token && decide (now < s.expiresAt)) = some row := by
    apply find?_eq_some_of_unique _ row sessions hmem
    · simp [hhash, hlive]
    · intro x hx hpx
      simp only [Bool.and_eq_true, beq_iff_eq, decide_eq_true_eq] at hpx
      exact huniq x hx hpx.1
  have hget : getSessionByTokenHash sessions users (hashFn token) now
      = some (row, user) := by
    simp [getSessionByTokenHash, hfind, huser]
  by_cases hcase : row.createdAt + idleTimeout < now
  · have hrun : validateToken hashFn idleTimeout sessions users token now
        = (.error .expired, sessions.filter (fun s => s.tokenHash != hashFn token)) := by
      unfold validateToken
      rw [if_neg htok]
      simp only [hget, hnull]
      rw [if_pos ⟨hidle, hcase⟩]
      rfl
    refine ⟨?_, fun _ => hrun, fun hle => absurd hcase (by omega)⟩
    rw [hrun]
    simpa using hcase
  · have hnot2 : ¬ (row.expiresAt < now) := by omega
    have hrun : validateToken hashFn idleTimeout sessions users token now
        = (.ok { id := row.id, tokenHash := hashFn token, expiresAt := row.expiresAt,
                 lastActiveAt := row.createdAt, user := toSessionUser user },
           updateSessionLastActive sessions row.id now) := by
      unfold validateToken
      rw [if_neg htok]
      simp only [hget, hnull]
      rw [if_neg (fun hc => hcase hc.2), if_neg hnot2]
    refine ⟨?_, fun hlt => absurd hlt hcase, fun _ => hrun⟩
    rw [hrun]
    simp only [reduceCtorEq, false_iff]
    omega

/-- Witness for C10 at a concrete input (success branch: `created_at = 0`,
idle timeout 1000, `now = 100`, absolute expiry 5000). -/
theorem c10_null_lastActive_uses_createdAt_witness :
    (((validateToken (fun t => t) 1000 [⟨1, 1, "h", 5000, none, 0⟩]
        [⟨1, "a@b.c", true, "A", none, none, "credentials", none, 0, none⟩] "h" 100).1
          = .error .expired) ↔ (0 : Int) + 1000 < 100)
    ∧ ((0 : Int) + 1000 < 100 →
        validateToken (fun t => t) 1000 [⟨1, 1, "h", 5000, none, 0⟩]
          [⟨1, "a@b.c", true, "A", none, none, "credentials", none, 0, none⟩] "h" 100
          = (.error .expired,
             List.filter (fun s => s.tokenHash != (fun t => t) "h")
               [⟨1, 1, "h", 5000, none, 0⟩]))
    ∧ ((100 : Int) ≤ 0 + 1000 →
        validateToken (fun t => t) 1000 [⟨1, 1, "h", 5000, none, 0⟩]
          [⟨1, "a@b.c", true, "A", none, none, "credentials", none, 0, none⟩] "h" 100
          = (.ok { id := 1, tokenHash := (fun t => t) "h", expiresAt := 5000,
                   lastActiveAt := 0,
                   user := toSessionUser
                     ⟨1, "a@b.c", true, "A", none, none, "credentials", none, 0, none⟩ },
             updateSessionLastActive [⟨1, 1, "h", 5000, none, 0⟩] 1 100)) :=
  c10_null_lastActive_uses_createdAt (fun t => t) 1000 [⟨1, 1, "h", 5000, none, 0⟩]
    [⟨1, "a@b.c", true, "A", none, none, "credentials", none, 0, none⟩] "h" 100
    ⟨1, 1, "h", 5000, none, 0⟩
    ⟨1, "a@b.c", true, "A", none, none, "credentials", none, 0, none⟩
    (by decide) (by decide) (by decide) (by decide) (by decide) (by decide)
    (by decide) (by decide)

/-- C10 counterexample to the claim as stated: a row with NULL
`last_active_at` whose idle window measured from `created_at` has lapsed
(`created_at + idleTimeout = 10 < now = 100`), but whose absolute expiry has
also passed (`expiresAt = 50 < now`): the claimed iff demands `Expired` with
the row deleted, yet the code returns `NotFound` and leaves the row in place
(the lookup filters it out). -/
theorem c10_counterexample :
    (validateToken (fun t => t) 10 [⟨1, 1, "h", 50, none, 0⟩]
        [⟨1, "a@b.c", true, "A", none, none, "credentials", none, 0, none⟩] "h" 100).1
      ≠ .error .expired
    ∧ (Session.mk 1 1 "h" 50 none 0).createdAt + 10 < 100
    ∧ (validateToken (fun t => t) 10 [⟨1, 1, "h", 50, none, 0⟩]
        [⟨1, "a@b.c", true, "A", none, none, "credentials", none, 0, none⟩] "h" 100).2
      = [⟨1, 1, "h", 50, none, 0⟩] := by
  refine ⟨by decide, by decide, by decide⟩

/-! ## Theorems: the session cap (C1) -/

/-- `oldestAux` returns one of its inputs. -/
theorem oldestAux_mem (l : List Session) : ∀ best : Session,
    oldestAux best l ∈ best :: l := by
  induction l with
  | nil => intro best; simp [oldestAux]
  | cons r rs ih =>
    intro best
    simp only [oldestAux]
    rcases List.mem_cons.mp (ih (if r.createdAt < best.createdAt then r else best)) with
      h1 | h1
    · rw [h1]
      split <;> simp
    · simp [h1]

/-- `oldestAux` returns a minimal `created_at` among its inputs. -/
theorem oldestAux_le (l : List Session) : ∀ best x : Session, x ∈ best :: l →
    (oldestAux best l).createdAt ≤ x.createdAt := by
  induction l with
  | nil =>
    intro best x hx
    rcases List.mem_cons.mp hx with rfl | h
    · simp [oldestAux]
    · cases h
  | cons r rs ih =>
    intro best x hx
    simp only [oldestAux]
    by_cases hsplit : r.createdAt < best.createdAt
    · rw [if_pos hsplit]
      have hbest : (oldestAux r rs).createdAt ≤ r.createdAt :=
        ih r r (List.mem_cons_self _ _)
      rcases List.mem_cons.mp hx with rfl | hx2
      · omega
      · rcases List.mem_cons.mp hx2 with rfl | hx3
        · omega
        · exact ih r x (List.mem_cons_of_mem _ hx3)
    · rw [if_neg hsplit]
      have hbest : (oldestAux best rs).createdAt ≤ best.createdAt :=
        ih best best (List.mem_cons_self _ _)
      rcases List.mem_cons.mp hx with rfl | hx2
      · omega
      · rcases List.mem_cons.mp hx2 with rfl | hx3
        · omega
        · exact ih best x (List.mem_cons_of_mem _ hx3)

/-- What `GetOldestUserSession` returns: a session of the user, present in the
table, minimal by `created_at` among the user's sessions. -/
theorem getOldestUserSession_spec (rows : List Session) (u : Nat) (o : Session)
    (h : getOldestUserSession rows u = some o) :
    o ∈ rows ∧ o.userId = u ∧
      ∀ s ∈ rows, s.userId = u → o.createdAt ≤ s.createdAt := by
  unfold getOldestUserSession at h
  cases hf : rows.filter (fun s => s.userId == u) with
  | nil => rw [hf] at h; cases h
  | cons r rs =>
    rw [hf] at h
    injection h with h
    have hmemf : o ∈ r :: rs := h ▸ oldestAux_mem rs r
    rw [← hf] at hmemf
    refine ⟨List.mem_of_mem_filter hmemf, by simpa using List.of_mem_filter hmemf, ?_⟩
    intro s hs hsu
    have hsf : s ∈ r :: rs := by
      rw [← hf]
      exact List.mem_filter.mpr ⟨hs, by simp [hsu]⟩
    exact h ▸ oldestAux_le rs r s hsf

/-- If the user has a session, `GetOldestUserSession` returns one. -/
theorem getOldestUserSession_isSome (rows : List Session) (u : Nat)
    (h : 0 < countUserSessions rows u) :
    ∃ o, getOldestUserSession rows u = some o := by
  unfold countUserSessions at h
  unfold getOldestUserSession
  cases hf : rows.filter (fun s => s.userId == u) with
  | nil => rw [hf] at h; simp at h
  | cons r rs => exact ⟨_, rfl⟩

/-- Deleting a user's session by a table-unique id lowers the user's count by
exactly one. -/
theorem countUserSessions_delete (rows : List Session) (u : Nat) (o : Session)
    (hnodup : (rows.map (fun s => s.id)).Nodup) (ho : o ∈ rows)
    (hou : o.userId = u) :
    countUserSessions rows u = countUserSessions (deleteSession rows o.id) u + 1 := by
  induction rows with
  | nil => cases ho
  | cons r rs ih =>
    rw [List.map_cons, List.nodup_cons] at hnodup
    obtain ⟨hrid, hnd⟩ := hnodup
    rcases List.mem_cons.mp ho with rfl | hmem
    · have hrs : rs.filter (fun s => s.id != o.id) = rs := by
        apply List.filter_eq_self.mpr
        intro s hs
        have hne : s.id ≠ o.id := by
          intro he
          exact hrid (he ▸ List.mem_map.mpr ⟨s, hs, rfl⟩)
        simp [hne]
      simp [countUserSessions, deleteSession, List.filter_cons, hou, hrs]
    · have hone : r.id ≠ o.id := by
        intro he
        exact hrid (he ▸ List.mem_map.mpr ⟨o, hmem, rfl⟩)
      have := ih hnd hmem
      by_cases hru : r.userId = u <;>
        simp [countUserSessions, deleteSession, List.filter_cons, hone, hru] at this ⊢ <;>
        omega

/-- One unfolding of the eviction loop: count already below the limit. -/
theorem evictLoop_of_lt (fuel : Nat) (rows : List Session) (u limit : Nat)
    (h : countUserSessions rows u < limit) :
    evictLoop (fuel + 1) rows u limit = rows := by
  simp [evictLoop, h]

/-- One unfolding of the eviction loop: count at or above the limit deletes
the oldest session and loops. -/
theorem evictLoop_step (fuel : Nat) (rows : List Session) (u limit : Nat)
    (o : Session) (h : ¬ countUserSessions rows u < limit)
    (ho : getOldestUserSession rows u = some o) :
    evictLoop (fuel + 1) rows u limit = evictLoop fuel (deleteSession rows o.id) u limit := by
  simp [evictLoop, h, ho]

/-- `enforceSessionLimit` with cap 5 on a user holding exactly 5 sessions
deletes exactly the oldest one, leaving 4. -/
theorem enforceSessionLimit_five (rows : List Session) (u : Nat)
    (hnodup : (rows.map (fun s => s.id)).Nodup)
    (hcount : countUserSessions rows u = 5) :
    ∃ o, getOldestUserSession rows u = some o ∧
      enforceSessionLimit rows u 5 = deleteSession rows o.id ∧
      countUserSessions (deleteSession rows o.id) u = 4 := by
  obtain ⟨o, ho⟩ := getOldestUserSession_isSome rows u (by omega)
  obtain ⟨hoMem, hoU, _⟩ := getOldestUserSession_spec rows u o ho
  have hdel := countUserSessions_delete rows u o hnodup hoMem hoU
  refine ⟨o, ho, ?_, by omega⟩
  unfold enforceSessionLimit
  rw [if_neg (by norm_num)]
  have h5 : (5 : Int).toNat = 5 := rfl
  rw [h5]
  have hlen : 1 ≤ rows.length := by
    have hle : (rows.filter (fun s => s.userId == u)).length ≤ rows.length :=
      List.length_filter_le _ _
    unfold countUserSessions at hcount
    omega
  rw [evictLoop_step rows.length rows u 5 o (by omega) ho]
  obtain ⟨m, hm⟩ : ∃ m, rows.length = m + 1 := ⟨rows.length - 1, by omega⟩
  rw [hm]
  exact evictLoop_of_lt m _ u 5 (by omega)

/-- `enforceSessionLimit` with cap 5 is the identity when the user's count is
already below 5. -/
theorem enforceSessionLimit_of_lt (rows : List Session) (u : Nat)
    (h : countUserSessions rows u < 5) :
    enforceSessionLimit rows u 5 = rows := by
  unfold enforceSessionLimit
  rw [if_neg (by norm_num)]
  exact evictLoop_of_lt rows.length rows u 5 (by simpa using h)

/-- Appending a session no older than the current minimum does not change
`oldestAux` (ties keep the earlier row, as the SQL ordering does). -/
theorem oldestAux_append_last (l : List Session) : ∀ best x : Session,
    (oldestAux best l).createdAt ≤ x.createdAt →
    oldestAux best (l ++ [x]) = oldestAux best l := by
  induction l with
  | nil =>
    intro best x h
    simp only [List.nil_append, oldestAux] at h ⊢
    rw [if_neg (by omega)]
  | cons r rs ih =>
    intro best x h
    simp only [List.cons_append, oldestAux] at h ⊢
    exact ih _ x h

/-- Appending a session of the user no older than the user's current oldest
does not change `GetOldestUserSession`. -/
theorem getOldestUserSession_append (rows1 : List Session) (u : Nat)
    (newRow : Session) (hnew : newRow.userId = u) (o : Session)
    (ho : getOldestUserSession rows1 u = some o)
    (hle : o.createdAt ≤ newRow.createdAt) :
    getOldestUserSession (rows1 ++ [newRow]) u = some o := by
  unfold getOldestUserSession at ho ⊢
  rw [List.filter_append]
  cases hf : rows1.filter (fun s => s.userId == u) with
  | nil => rw [hf] at ho; cases ho
  | cons r rs =>
    rw [hf] at ho
    injection ho with ho
    have hnewf : [newRow].filter (fun s => s.userId == u) = [newRow] := by
      simp [hnew]
    rw [hnewf]
    show some (oldestAux r (rs ++ [newRow])) = some o
    rw [oldestAux_append_last rs r newRow (by rw [ho]; exact hle), ho]

/-- Rows deleted by id stay rows of the original table. -/
theorem deleteSession_subset (rows : List Session) (sid : Nat) :
    ∀ s ∈ deleteSession rows sid, s ∈ rows :=
  fun _ hs => List.mem_of_mem_filter hs

/-- No surviving row carries the deleted id. -/
theorem deleteSession_id_ne (rows : List Session) (sid : Nat) :
    ∀ s ∈ deleteSession rows sid, s.id ≠ sid := by
  intro s hs
  have := List.of_mem_filter hs
  simpa using this

/-- Deleting preserves id-uniqueness. -/
theorem deleteSession_nodup (rows : List Session) (sid : Nat)
    (h : (rows.map (fun s => s.id)).Nodup) :
    ((deleteSession rows sid).map (fun s => s.id)).Nodup :=
  List.Nodup.sublist (List.Sublist.map _ (List.filter_sublist _)) h

/-- C1 (amended): creating a session for a user who already holds exactly 5
live sessions succeeds and leaves the user with exactly **4** live sessions:
the pre-insert eviction loop (which runs until the count is strictly below
the cap) removes the oldest session, and the identical re-enforcement after
insertion removes the next oldest, so the two oldest are gone, the new
session is present, and no session appears from nowhere. -/
theorem c1_cap_five_leaves_four (rows : List Session) (u newId : Nat)
    (tokenHash : String) (now maxAge : Int) (o1 o2 : Session)
    (hnodup : (rows.map (fun s => s.id)).Nodup)
    (hcount : countUserSessions rows u = 5)
    (hpast : ∀ r ∈ rows, r.userId = u → r.createdAt ≤ now)
    (hfresh : ∀ r ∈ rows, r.id ≠ newId)
    (ho1 : getOldestUserSession rows u = some o1)
    (ho2 : getOldestUserSession (deleteSession rows o1.id) u = some o2) :
    countUserSessions (createSession rows u newId tokenHash now maxAge) u = 4
    ∧ (∃ r ∈ createSession rows u newId tokenHash now maxAge, r.id = newId)
    ∧ (∀ r ∈ createSession rows u newId tokenHash now maxAge, r.id ≠ o1.id)
    ∧ (∀ r ∈ createSession rows u newId tokenHash now maxAge, r.id ≠ o2.id)
    ∧ (∀ r ∈ createSession rows u newId tokenHash now maxAge,
        r.id = newId ∨ r ∈ rows) := by
  obtain ⟨o1w, ho1w, henf1, hcnt1⟩ := enforceSessionLimit_five rows u hnodup hcount
  have ho1eq : o1w = o1 := by
    rw [ho1] at ho1w
    exact (Option.some.inj ho1w).symm
  subst ho1eq
  obtain ⟨ho1Mem, ho1U, _⟩ := getOldestUserSession_spec rows u o1w ho1
  obtain ⟨ho2Mem, ho2U, _⟩ :=
    getOldestUserSession_spec (deleteSession rows o1w.id) u o2 ho2
  set rows1 := deleteSession rows o1w.id with hrows1
  set newRow : Session :=
    { id := newId, userId := u, tokenHash := tokenHash,
      expiresAt := now + maxAge, lastActiveAt := some now, createdAt := now }
    with hnewRow
  set rows2 := rows1 ++ [newRow] with hrows2
  have hcnt2 : countUserSessions rows2 u = 5 := by
    unfold countUserSessions at hcnt1 ⊢
    rw [hrows2, List.filter_append]
    simp [hnewRow, hcnt1]
  have hnd1 : (rows1.map (fun s => s.id)).Nodup := deleteSession_nodup rows o1w.id hnodup
  have hsub1 : ∀ s ∈ rows1, s ∈ rows := deleteSession_subset rows o1w.id
  have hfresh1 : ∀ r ∈ rows1, r.id ≠ newId := fun r hr => hfresh r (hsub1 r hr)
  have hnd2 : (rows2.map (fun s => s.id)).Nodup := by
    rw [hrows2, List.map_append]
    refine List.Nodup.append hnd1 (by simp) ?_
    intro a ha hb
    simp only [List.map_cons, List.map_nil, List.mem_singleton] at hb
    obtain ⟨r, hr, hrid⟩ := List.mem_map.mp ha
    exact hfresh1 r hr (by rw [hrid, hb])
  have hgo2 : getOldestUserSession rows2 u = some o2 :=
    getOldestUserSession_append rows1 u newRow rfl o2 ho2
      (hpast o2 (hsub1 o2 ho2Mem) ho2U)
  obtain ⟨o2w, ho2w, henf2, hcnt2d⟩ := enforceSessionLimit_five rows2 u hnd2 hcnt2
  have ho2eq : o2w = o2 := by
    rw [hgo2] at ho2w
    exact (Option.some.inj ho2w).symm
  subst ho2eq
  have hfinal : createSession rows u newId tokenHash now maxAge
      = deleteSession rows2 o2w.id := by
    show enforceSessionLimit (enforceSessionLimit rows u 5 ++ [newRow]) u 5
      = deleteSession rows2 o2w.id
    rw [henf1, ← hrows2, henf2]
  have ho2idne : o2w.id ≠ newId := hfresh o2w (hsub1 o2w ho2Mem)
  have ho1idne : o1w.id ≠ newId := hfresh o1w ho1Mem
  refine ⟨?_, ?_, ?_, ?_, ?_⟩
  · rw [hfinal]; exact hcnt2d
  · refine ⟨newRow, ?_, rfl⟩
    rw [hfinal]
    apply List.mem_filter.mpr
    refine ⟨?_, by simp [hnewRow]; exact fun he => ho2idne he.symm⟩
    exact List.mem_append.mpr (Or.inr (List.mem_singleton.mpr rfl))
  · intro r hr
    rw [hfinal] at hr
    have hr2 : r ∈ rows2 := List.mem_of_mem_filter hr
    rcases List.mem_append.mp hr2 with h1 | h1
    · exact deleteSession_id_ne rows o1w.id r h1
    · rw [List.mem_singleton.mp h1]
      exact fun he => ho1idne he.symm
  · intro r hr
    rw [hfinal] at hr
    exact deleteSession_id_ne rows2 o2w.id r hr
  · intro r hr
    rw [hfinal] at hr
    have hr2 : r ∈ rows2 := List.mem_of_mem_filter hr
    rcases List.mem_append.mp hr2 with h1 | h1
    · exact Or.inr (hsub1 r h1)
    · exact Or.inl (by rw [List.mem_singleton.mp h1])

/-- Witness for C1's amended theorem at a concrete input: user 7 holds
sessions 1–5 (created at times 1–5); creating session 6 at time 10 leaves
sessions 3, 4, 5 and 6. -/
theorem c1_cap_five_leaves_four_witness :
    countUserSessions (createSession [⟨1, 7, "t1", 99, none, 1⟩, ⟨2, 7, "t2", 99, none, 2⟩,
        ⟨3, 7, "t3", 99, none, 3⟩, ⟨4, 7, "t4", 99, none, 4⟩, ⟨5, 7, "t5", 99, none, 5⟩]
        7 6 "t6" 10 100) 7 = 4
    ∧ (∃ r ∈ createSession [⟨1, 7, "t1", 99, none, 1⟩, ⟨2, 7, "t2", 99, none, 2⟩,
        ⟨3, 7, "t3", 99, none, 3⟩, ⟨4, 7, "t4", 99, none, 4⟩, ⟨5, 7, "t5", 99, none, 5⟩]
        7 6 "t6" 10 100, r.id = 6)
    ∧ (∀ r ∈ createSession [⟨1, 7, "t1", 99, none, 1⟩, ⟨2, 7, "t2", 99, none, 2⟩,
        ⟨3, 7, "t3", 99, none, 3⟩, ⟨4, 7, "t4", 99, none, 4⟩, ⟨5, 7, "t5", 99, none, 5⟩]
        7 6 "t6" 10 100, r.id ≠ (Session.mk 1 7 "t1" 99 none 1).id)
    ∧ (∀ r ∈ createSession [⟨1, 7, "t1", 99, none, 1⟩, ⟨2, 7, "t2", 99, none, 2⟩,
        ⟨3, 7, "t3", 99, none, 3⟩, ⟨4, 7, "t4", 99, none, 4⟩, ⟨5, 7, "t5", 99, none, 5⟩]
        7 6 "t6" 10 100, r.id ≠ (Session.mk 2 7 "t2" 99 none 2).id)
    ∧ (∀ r ∈ createSession [⟨1, 7, "t1", 99, none, 1⟩, ⟨2, 7, "t2", 99, none, 2⟩,
        ⟨3, 7, "t3", 99, none, 3⟩, ⟨4, 7, "t4", 99, none, 4⟩, ⟨5, 7, "t5", 99, none, 5⟩]
        7 6 "t6" 10 100, r.id = 6 ∨ r ∈ [⟨1, 7, "t1", 99, none, 1⟩, ⟨2, 7, "t2", 99, none, 2⟩,
        ⟨3, 7, "t3", 99, none, 3⟩, ⟨4, 7, "t4", 99, none, 4⟩, ⟨5, 7, "t5", 99, none, 5⟩]) :=
  c1_cap_five_leaves_four
    [⟨1, 7, "t1", 99, none, 1⟩, ⟨2, 7, "t2", 99, none, 2⟩, ⟨3, 7, "t3", 99, none, 3⟩,
     ⟨4, 7, "t4", 99, none, 4⟩, ⟨5, 7, "t5", 99, none, 5⟩]
    7 6 "t6" 10 100 ⟨1, 7, "t1", 99, none, 1⟩ ⟨2, 7, "t2", 99, none, 2⟩
    (by decide) (by decide) (by decide) (by decide) (by decide) (by decide)

/-- C1 counterexample to the claim as stated: for a user with exactly 5 live
sessions, `CreateSession` leaves 4 live sessions, not the claimed 5 — the
post-insert re-enforcement evicts a second session. -/
theorem c1_counterexample :
    countUserSessions (createSession [⟨1, 7, "t1", 99, none, 1⟩, ⟨2, 7, "t2", 99, none, 2⟩,
        ⟨3, 7, "t3", 99, none, 3⟩, ⟨4, 7, "t4", 99, none, 4⟩, ⟨5, 7, "t5", 99, none, 5⟩]
        7 6 "t6" 10 100) 7 = 4
    ∧ countUserSessions (createSession [⟨1, 7, "t1", 99, none, 1⟩, ⟨2, 7, "t2", 99, none, 2⟩,
        ⟨3, 7, "t3", 99, none, 3⟩, ⟨4, 7, "t4", 99, none, 4⟩, ⟨5, 7, "t5", 99, none, 5⟩]
        7 6 "t6" 10 100) 7 ≠ 5 := by
  refine ⟨by decide, by decide⟩

/-! ## Auth orchestrator (`internal/api`, auth handler file)

`HandleLogin` and `HandleRegister` as state transitions.  The HTTP layer
becomes a response value; DB rows become the explicit lists/rows above;
collaborators whose outcomes are environmental — the rate-limit decision, the
`GetUserByEmail` round-trip, the argon2 verifier, `HashPassword`'s random
salt, `CreateSession`'s token generation, a unique-constraint violation raced
in between the duplicate pre-check and the insert — are explicit parameters,
one per Go error branch. -/

/-- The `writeJSON` responses the two handlers can produce. -/
inductive HttpResponse where
  | badRequest (msg : String)
  | tooManyRequests
  | unauthorized (msg : String)
  | internalServerError
  | okStatus (status : String)
  deriving DecidableEq, Repr

/-- The one user-visible message of every generic 401 in `HandleLogin`. -/
def genericLoginError : String := "invalid email or password"

/-- `30 * time.Minute` in milliseconds (the lockout duration). -/
def lockDuration : Int := 30 * 60 * 1000

/-- Everything observable about one `HandleLogin` run: the HTTP response, the
final state of the looked-up `users` row (when one was found), the audit
events `(event_type, reason)` in order, how many times the equalised-cost
`FakePasswordHash` ran, and whether a session was created / a lockout email
sent. -/
structure LoginOutcome where
  response : HttpResponse
  userRow : Option DbUser
  audits : List (String × Option String)
  fakeHashRuns : Nat
  sessionCreated : Bool
  lockoutEmailSent : Bool
  deriving DecidableEq, Repr

/-- `AuthHandler.HandleLogin`, step for step from the Go source.
`normEmail` is the outcome of `domain.NormalizeEmail(req.Email)` (its parser
is the external `net/mail`); `rateAllowed` the `allowRequest` decision;
`lookup` the `GetUserByEmail` round-trip (`error` a DB failure, `ok none` the
`pgx.ErrNoRows` miss); `verify` the argon2 `VerifyPassword`; `sessionOk`
whether `CreateSession` succeeds. -/
def handleLogin (normEmail : Except Unit String) (rateAllowed : Bool)
    (lookup : Except Unit (Option DbUser))
    (verify : String → String → Except Unit Bool) (sessionOk : Bool)
    (password : String) (now : Int) : LoginOutcome :=
  match normEmail with
  | .error _ => ⟨.badRequest "invalid email", none, [], 0, false, false⟩
  | .ok _ =>
    if !rateAllowed then ⟨.tooManyRequests, none, [], 0, false, false⟩
    else if 1000 < password.utf8ByteSize then
      ⟨.badRequest "invalid password", none, [], 0, false, false⟩
    else
      match lookup with
      | .error _ => ⟨.internalServerError, none, [], 0, false, false⟩
      | .ok none =>
        ⟨.unauthorized genericLoginError, none, [("login_failure", some "not_found")],
         1, false, false⟩
      | .ok (some user0) =>
        -- locked and still inside the lock window: generic 401
        if user0.lockedUntil.isSome ∧ now < user0.lockedUntil.getD 0 then
          ⟨.unauthorized genericLoginError, some user0,
           [("login_failure", some "locked")], 0, false, false⟩
        else
          -- lock expired: UnlockUser clears the lock and the counter
          let user :=
            if user0.lockedUntil.isSome ∧ user0.lockedUntil.getD 0 < now then
              { user0 with lockedUntil := none, failedLoginAttempts := 0 }
            else user0
          if user.provider ≠ "credentials" then
            ⟨.unauthorized genericLoginError, some user,
             [("login_failure", some "invalid_provider")], 1, false, false⟩
          else
            match user.passwordHash with
            | none =>
              ⟨.unauthorized genericLoginError, some user,
               [("login_failure", some "invalid_provider")], 1, false, false⟩
            | some storedHash =>
              match verify password storedHash with
              | .error _ => ⟨.internalServerError, some user, [], 0, false, false⟩
              | .ok false =>
                let updated := { user with
                  failedLoginAttempts := user.failedLoginAttempts + 1 }
                if 10 ≤ updated.failedLoginAttempts then
                  let locked := { updated with lockedUntil := some (now + lockDuration) }
                  ⟨.unauthorized genericLoginError, some locked,
                   [("account_lockout", none), ("login_failure", some "invalid_password")],
                   0, false, true⟩
                else
                  ⟨.unauthorized genericLoginError, some updated,
                   [("login_failure", some "invalid_password")], 0, false, false⟩
              | .ok true =>
                let reset := { user with failedLoginAttempts := 0 }
                if !sessionOk then ⟨.internalServerError, some reset, [], 0, false, false⟩
                else ⟨.okStatus "ok", some reset, [("login_success", none)], 0, true, false⟩

/-- Go `strings.TrimSpace`, structurally recursive so the kernel can
evaluate it (ASCII whitespace model; the deny of exotic Unicode spaces does
not matter to any theorem below). -/
def dropLeadingSpace : List Char → List Char
  | [] => []
  | c :: cs => if c.isWhitespace then dropLeadingSpace cs else c :: cs

/-- Trim both ends: reverse, drop, reverse, drop. -/
def trimSpace (s : String) : String :=
  String.mk (dropLeadingSpace ((dropLeadingSpace s.data.reverse).reverse))

/-- The `CreateUser` outcome seen by `HandleRegister`: success, a
unique-constraint violation (a concurrent request inserted the email between
the duplicate pre-check and this insert), or any other DB failure. -/
inductive InsertResult where
  | ok
  | uniqueViolation
  | otherError
  deriving DecidableEq, Repr

/-- Everything observable about one `HandleRegister` run. -/
structure RegisterOutcome where
  response : HttpResponse
  users : List DbUser
  audits : List String
  cookieSet : Bool
  verificationEmailSent : Bool
  deriving DecidableEq, Repr

/-- `AuthHandler.HandleRegister`, step for step from the Go source.
`lookupFails` models a non-`ErrNoRows` failure of the duplicate pre-check;
`hashedPw` the `HashPassword` outcome; `insertResult` the `CreateUser`
outcome; `hadSessionCookie` whether the request carried a session cookie to
rotate; `sessionOk` whether `CreateSession` succeeds. -/
def handleRegister (rateAllowed : Bool) (normEmail : Except Unit String)
    (rawName password : String) (users : List DbUser) (lookupFails : Bool)
    (hashedPw : Except Unit String) (insertResult : InsertResult) (newId : Nat)
    (hadSessionCookie sessionOk : Bool) : RegisterOutcome :=
  if !rateAllowed then ⟨.tooManyRequests, users, [], false, false⟩
  else
    match normEmail with
    | .error _ => ⟨.badRequest "invalid email", users, [], false, false⟩
    | .ok email =>
      let name := trimSpace rawName
      if name = "" ∨ 255 < name.utf8ByteSize then
        ⟨.badRequest "invalid name", users, [], false, false⟩
      else
        match validatePassword password with
        | some e => ⟨.badRequest (passwordErrorMessage e), users, [], false, false⟩
        | none =>
          if lookupFails then ⟨.internalServerError, users, [], false, false⟩
          else
            match users.find? (fun u => u.email == email) with
            | some _ => ⟨.okStatus "ok", users, ["register_duplicate"], false, false⟩
            | none =>
              match hashedPw with
              | .error _ => ⟨.internalServerError, users, [], false, false⟩
              | .ok hash =>
                match insertResult with
                | .uniqueViolation =>
                  ⟨.okStatus "ok", users, ["register_duplicate"], false, false⟩
                | .otherError => ⟨.internalServerError, users, [], false, false⟩
                | .ok =>
                  let newUser : DbUser :=
                    { id := newId, email := email, emailVerified := false, name := name,
                      picture := none, passwordHash := some hash,
                      provider := "credentials", googleId := none,
                      failedLoginAttempts := 0, lockedUntil := none }
                  let users2 := users ++ [newUser]
                  let audits0 := if hadSessionCookie then ["session_revoked"] else []
                  if !sessionOk then ⟨.internalServerError, users2, audits0, false, false⟩
                  else ⟨.okStatus "ok", users2, audits0 ++ ["register_success"], true, true⟩

/-! ## Theorems: account lockout (C7) -/

/-- C7: (a) a failed login that brings the failure counter to 10 locks the
account until `now + 30 minutes` and answers the generic 401; (b) while
`locked_until` lies in the future every attempt — whatever the verifier would
say, in particular with the correct password — answers the generic 401 and
leaves the row unchanged, creating no session; (c) on the first attempt after
`locked_until` has elapsed the lock is cleared and the failure counter reset
(a counter of 1 remains only when that very attempt fails again). -/
theorem c7_account_lockout :
    (∀ (e password storedHash : String) (user : DbUser)
        (verify : String → String → Except Unit Bool) (sessionOk : Bool) (now : Int),
        password.utf8ByteSize ≤ 1000 →
        user.lockedUntil = none →
        user.provider = "credentials" →
        user.passwordHash = some storedHash →
        verify password storedHash = .ok false →
        9 ≤ user.failedLoginAttempts →
        (handleLogin (.ok e) true (.ok (some user)) verify sessionOk password now).response
            = .unauthorized genericLoginError
        ∧ (handleLogin (.ok e) true (.ok (some user)) verify sessionOk password now).userRow
            = some { user with
                     failedLoginAttempts := user.failedLoginAttempts + 1
                     lockedUntil := some (now + lockDuration) }
        ∧ (handleLogin (.ok e) true (.ok (some user)) verify sessionOk password
            now).lockoutEmailSent = true)
    ∧ (∀ (e password : String) (user : DbUser)
        (verify : String → String → Except Unit Bool) (sessionOk : Bool) (now t : Int),
        password.utf8ByteSize ≤ 1000 →
        user.lockedUntil = some t →
        now < t →
        (handleLogin (.ok e) true (.ok (some user)) verify sessionOk password now).response
            = .unauthorized genericLoginError
        ∧ (handleLogin (.ok e) true (.ok (some user)) verify sessionOk password now).userRow
            = some user
        ∧ (handleLogin (.ok e) true (.ok (some user)) verify sessionOk password
            now).sessionCreated = false)
    ∧ (∀ (e password : String) (user : DbUser)
        (verify : String → String → Except Unit Bool) (sessionOk : Bool) (now t : Int),
        password.utf8ByteSize ≤ 1000 →
        user.lockedUntil = some t →
        t < now →
        ∃ u2, (handleLogin (.ok e) true (.ok (some user)) verify sessionOk password
            now).userRow = some u2
          ∧ u2.lockedUntil = none
          ∧ (u2.failedLoginAttempts = 0 ∨ u2.failedLoginAttempts = 1)) := by
  refine ⟨?_, ?_, ?_⟩
  · intro e password storedHash user verify sessionOk now hlen hl hp hph hv hcnt
    have h1000 : ¬ (1000 < password.utf8ByteSize) := by omega
    have hlock : ¬ (user.lockedUntil.isSome ∧ now < user.lockedUntil.getD 0) := by
      simp [hl]
    have hunlock : ¬ (user.lockedUntil.isSome ∧ user.lockedUntil.getD 0 < now) := by
      simp [hl]
    have h10 : 10 ≤ user.failedLoginAttempts + 1 := by omega
    simp [handleLogin, if_neg h1000, if_neg hlock, if_neg hunlock, hp, hph, hv, h10]
  · intro e password user verify sessionOk now t hlen hl hlt
    have h1000 : ¬ (1000 < password.utf8ByteSize) := by omega
    have hlock : user.lockedUntil.isSome ∧ now < user.lockedUntil.getD 0 := by
      simp [hl]; omega
    simp [handleLogin, if_neg h1000, if_pos hlock]
  · intro e password user verify sessionOk now t hlen hl hgt
    have h1000 : ¬ (1000 < password.utf8ByteSize) := by omega
    have hlock : ¬ (user.lockedUntil.isSome ∧ now < user.lockedUntil.getD 0) := by
      simp [hl]; omega
    have hunlock : user.lockedUntil.isSome ∧ user.lockedUntil.getD 0 < now := by
      simp [hl]; omega
    simp only [handleLogin, Bool.not_true, Bool.false_eq_true, if_false,
      if_neg h1000, if_neg hlock, if_pos hunlock]
    by_cases hp : user.provider ≠ "credentials"
    · rw [if_pos hp]
      exact ⟨_, rfl, rfl, Or.inl rfl⟩
    · rw [if_neg hp]
      split
      · exact ⟨_, rfl, rfl, Or.inl rfl⟩
      · split
        · exact ⟨_, rfl, rfl, Or.inl rfl⟩
        · split <;>
            first
              | exact ⟨_, rfl, rfl, Or.inr rfl⟩
              | (rename_i hcond
                 exfalso
                 simp_all)
        · split
          · exact ⟨_, rfl, rfl, Or.inl rfl⟩
          · exact ⟨_, rfl, rfl, Or.inl rfl⟩

/-- Witness for C7 at a concrete input (part (a): counter at 9, wrong
password, account locks until `0 + 30 min`). -/
theorem c7_account_lockout_witness :
    (handleLogin (.ok "a@b.c") true
        (.ok (some ⟨1, "a@b.c", true, "A", none, some "H", "credentials", none, 9, none⟩))
        (fun _ _ => .ok false) true "p" 0).response = .unauthorized genericLoginError
    ∧ (handleLogin (.ok "a@b.c") true
        (.ok (some ⟨1, "a@b.c", true, "A", none, some "H", "credentials", none, 9, none⟩))
        (fun _ _ => .ok false) true "p" 0).userRow
      = some ⟨1, "a@b.c", true, "A", none, some "H", "credentials", none, 9 + 1,
          some (0 + lockDuration)⟩
    ∧ (handleLogin (.ok "a@b.c") true
        (.ok (some ⟨1, "a@b.c", true, "A", none, some "H", "credentials", none, 9, none⟩))
        (fun _ _ => .ok false) true "p" 0).lockoutEmailSent = true :=
  c7_account_lockout.1 "a@b.c" "p" "H"
    ⟨1, "a@b.c", true, "A", none, some "H", "credentials", none, 9, none⟩
    (fun _ _ => .ok false) true 0 (by decide) rfl rfl rfl rfl (by decide)

/-! ## Theorems: equalised-cost fake hashing and the one generic 401 (C9) -/

/-- C9: the unknown-email failure and the wrong-provider / missing-hash
failure both invoke `FakePasswordHash` exactly once, and both answer a 401
whose body is literally the same `genericLoginError` the wrong-password
failure answers. -/
theorem c9_fake_hash_on_unrelated_failures :
    (∀ (e password : String) (verify : String → String → Except Unit Bool)
        (sessionOk : Bool) (now : Int),
        password.utf8ByteSize ≤ 1000 →
        (handleLogin (.ok e) true (.ok none) verify sessionOk password now).fakeHashRuns = 1
        ∧ (handleLogin (.ok e) true (.ok none) verify sessionOk password now).response
            = .unauthorized genericLoginError)
    ∧ (∀ (e password : String) (user : DbUser)
        (verify : String → String → Except Unit Bool) (sessionOk : Bool) (now : Int),
        password.utf8ByteSize ≤ 1000 →
        user.lockedUntil = none →
        (user.provider ≠ "credentials" ∨ user.passwordHash = none) →
        (handleLogin (.ok e) true (.ok (some user)) verify sessionOk password
            now).fakeHashRuns = 1
        ∧ (handleLogin (.ok e) true (.ok (some user)) verify sessionOk password
            now).response = .unauthorized genericLoginError)
    ∧ (∀ (e password storedHash : String) (user : DbUser)
        (verify : String → String → Except Unit Bool) (sessionOk : Bool) (now : Int),
        password.utf8ByteSize ≤ 1000 →
        user.lockedUntil = none →
        user.provider = "credentials" →
        user.passwordHash = some storedHash →
        verify password storedHash = .ok false →
        (handleLogin (.ok e) true (.ok (some user)) verify sessionOk password
            now).response = .unauthorized genericLoginError) := by
  refine ⟨?_, ?_, ?_⟩
  · intro e password verify sessionOk now hlen
    have h1000 : ¬ (1000 < password.utf8ByteSize) := by omega
    simp [handleLogin, if_neg h1000]
  · intro e password user verify sessionOk now hlen hl hcase
    have h1000 : ¬ (1000 < password.utf8ByteSize) := by omega
    have hlock : ¬ (user.lockedUntil.isSome ∧ now < user.lockedUntil.getD 0) := by
      simp [hl]
    have hunlock : ¬ (user.lockedUntil.isSome ∧ user.lockedUntil.getD 0 < now) := by
      simp [hl]
    simp only [handleLogin, Bool.not_true, Bool.false_eq_true, if_false,
      if_neg h1000, if_neg hlock, if_neg hunlock]
    by_cases hp : user.provider ≠ "credentials"
    · rw [if_pos hp]
      exact ⟨rfl, rfl⟩
    · rw [if_neg hp]
      have hph : user.passwordHash = none := by
        rcases hcase with h | h
        · exact absurd h hp
        · exact h
      rw [hph]
      exact ⟨rfl, rfl⟩
  · intro e password storedHash user verify sessionOk now hlen hl hp hph hv
    have h1000 : ¬ (1000 < password.utf8ByteSize) := by omega
    have hlock : ¬ (user.lockedUntil.isSome ∧ now < user.lockedUntil.getD 0) := by
      simp [hl]
    have hunlock : ¬ (user.lockedUntil.isSome ∧ user.lockedUntil.getD 0 < now) := by
      simp [hl]
    simp [handleLogin, if_neg h1000, if_neg hlock, if_neg hunlock, hp, hph, hv]
    split <;> rfl

/-- Witness for C9 at a concrete input (unknown email). -/
theorem c9_fake_hash_on_unrelated_failures_witness :
    (handleLogin (.ok "a@b.c") true (.ok none) (fun _ _ => .ok true) true "p" 0).fakeHashRuns
      = 1
    ∧ (handleLogin (.ok "a@b.c") true (.ok none) (fun _ _ => .ok true) true "p" 0).response
      = .unauthorized genericLoginError :=
  c9_fake_hash_on_unrelated_failures.1 "a@b.c" "p" (fun _ _ => .ok true) true 0 (by decide)

/-! ## Theorems: duplicate registration (C8) -/

/-- C8: registering an email that already has a `users` row answers the same
200 `status: ok` body as a fresh registration, leaves the `users` table
unchanged, and audits `register_duplicate` (never `register_success`) — both
when the pre-insert lookup sees the duplicate and when a raced insert
surfaces it as a unique-constraint violation. -/
theorem c8_duplicate_registration :
    (∀ (email rawName password : String) (users : List DbUser)
        (hashedPw : Except Unit String) (insertResult : InsertResult) (newId : Nat)
        (hadCookie sessionOk : Bool),
        trimSpace rawName ≠ "" →
        (trimSpace rawName).utf8ByteSize ≤ 255 →
        validatePassword password = none →
        (∃ u ∈ users, u.email = email) →
        handleRegister true (.ok email) rawName password users false hashedPw
            insertResult newId hadCookie sessionOk
          = ⟨.okStatus "ok", users, ["register_duplicate"], false, false⟩)
    ∧ (∀ (email rawName password hash : String) (users : List DbUser) (newId : Nat)
        (hadCookie sessionOk : Bool),
        trimSpace rawName ≠ "" →
        (trimSpace rawName).utf8ByteSize ≤ 255 →
        validatePassword password = none →
        (∀ u ∈ users, u.email ≠ email) →
        handleRegister true (.ok email) rawName password users false (.ok hash)
            .uniqueViolation newId hadCookie sessionOk
          = ⟨.okStatus "ok", users, ["register_duplicate"], false, false⟩)
    ∧ (∀ (email rawName password hash : String) (users : List DbUser) (newId : Nat)
        (hadCookie : Bool),
        trimSpace rawName ≠ "" →
        (trimSpace rawName).utf8ByteSize ≤ 255 →
        validatePassword password = none →
        (∀ u ∈ users, u.email ≠ email) →
        (handleRegister true (.ok email) rawName password users false (.ok hash)
            .ok newId hadCookie true).response = .okStatus "ok"
        ∧ (handleRegister true (.ok email) rawName password users false (.ok hash)
            .ok newId hadCookie true).response
          = (handleRegister true (.ok email) rawName password users false (.ok hash)
              .uniqueViolation newId hadCookie true).response) := by
  have hnamecond : ∀ rawName : String, trimSpace rawName ≠ "" →
      (trimSpace rawName).utf8ByteSize ≤ 255 →
      ¬ (trimSpace rawName = "" ∨ 255 < (trimSpace rawName).utf8ByteSize) := by
    intro rawName h1 h2 hc
    rcases hc with hc | hc
    · exact h1 hc
    · omega
  refine ⟨?_, ?_, ?_⟩
  · intro email rawName password users hashedPw insertResult newId hadCookie sessionOk
      h1 h2 hpw hexists
    obtain ⟨u, hu, hue⟩ := hexists
    have hsome : (users.find? (fun x => x.email == email)).isSome :=
      List.find?_isSome.mpr ⟨u, hu, by simp [hue]⟩
    obtain ⟨w, hw⟩ := Option.isSome_iff_exists.mp hsome
    simp [handleRegister, if_neg (hnamecond rawName h1 h2), hpw, hw]
  · intro email rawName password hash users newId hadCookie sessionOk h1 h2 hpw hnone
    have hfind : users.find? (fun x => x.email == email) = none := by
      apply List.find?_eq_none.mpr
      intro x hx
      simp [hnone x hx]
    simp [handleRegister, if_neg (hnamecond rawName h1 h2), hpw, hfind]
  · intro email rawName password hash users newId hadCookie h1 h2 hpw hnone
    have hfind : users.find? (fun x => x.email == email) = none := by
      apply List.find?_eq_none.mpr
      intro x hx
      simp [hnone x hx]
    constructor <;>
      simp [handleRegister, if_neg (hnamecond rawName h1 h2), hpw, hfind]

/-- Witness for C8 at a concrete input (pre-insert duplicate of
`a@b.c`). -/
theorem c8_duplicate_registration_witness :
    handleRegister true (.ok "a@b.c") "Alice" "Str0ng!Pass"
        [⟨1, "a@b.c", false, "Alice", none, some "H", "credentials", none, 0, none⟩]
        false (.ok "H2") .ok 2 false true
      = ⟨.okStatus "ok",
         [⟨1, "a@b.c", false, "Alice", none, some "H", "credentials", none, 0, none⟩],
         ["register_duplicate"], false, false⟩ :=
  c8_duplicate_registration.1 "a@b.c" "Alice" "Str0ng!Pass"
    [⟨1, "a@b.c", false, "Alice", none, some "H", "credentials", none, 0, none⟩]
    (.ok "H2") .ok 2 false true (by decide) (by decide) (by decide) (by decide)

/-! ## Password hash format (`internal/domain`, password file): `HashPassword`,
`VerifyPassword`, `decodeArgon2idHash` (context for C4)

The memory-hard derivation `argon2.IDKey` and the base64 `RawStdEncoding`
codec are external library primitives (`golang.org/x/crypto`,
`encoding/base64`), so they enter the embedding as parameters `idKey`,
`b64encode`, `b64decode`; everything the repository itself does — the
`$`-separated self-describing format, its parser with all its checks, the
recomputation and constant-time comparison — is embedded below.  Byte slices
become `List Nat`; `idKey` takes the Go argument order
`(password, salt, iterations, memory, parallelism, keyLength)`. -/

/-- `argon2Memory` from the Go constants (`64 * 1024`). -/
def argon2Memory : Nat := 64 * 1024

/-- `argon2Iterations` from the Go constants. -/
def argon2Iterations : Nat := 3

/-- `argon2Parallelism` from the Go constants. -/
def argon2Parallelism : Nat := 4

/-- `argon2KeyLength` from the Go constants. -/
def argon2KeyLength : Nat := 32

/-- `strings.Split(s, sep)` for a one-character separator, on the character
list of the string. -/
def splitChar (sep : Char) : List Char → List (List Char)
  | [] => [[]]
  | c :: cs =>
    let rest := splitChar sep cs
    if c = sep then [] :: rest
    else (c :: rest.headD []) :: rest.tail

/-- Digit run of Go `strconv.Atoi`. -/
def atoiDigits (ds : List Char) : Option Nat :=
  if ds = [] then none
  else if ds.all (fun c => decide ('0' ≤ c ∧ c ≤ '9')) then
    some (ds.foldl (fun acc c => acc * 10 + (c.toNat - 48)) 0)
  else none

/-- Go `strconv.Atoi` (sign handling, no overflow model — the parsed
parameters are small). -/
def atoi : List Char → Option Int
  | [] => none
  | '-' :: ds => (atoiDigits ds).map (fun n => -(n : Int))
  | '+' :: ds => (atoiDigits ds).map (fun n => (n : Int))
  | ds => (atoiDigits ds).map (fun n => (n : Int))

/-- The Go `argon2Params` struct carried by a decoded hash. -/
structure Argon2Params where
  memory : Nat
  iterations : Nat
  parallelism : Nat
  deriving DecidableEq, Repr

/-- Go `parseArgon2Param`: split on `=`, check the label, `Atoi` the value,
reject non-positive values. -/
def parseArgon2Param (input label : String) : Option Nat :=
  match splitChar '=' input.data with
  | [l, v] =>
    if String.mk l = label then
      match atoi v with
      | some value => if value ≤ 0 then none else some value.toNat
      | none => none
    else none
  | _ => none

/-- Go `decodeArgon2idHash`: split the encoded string on `$` into exactly 6
parts, check the algorithm id and version, parse `m`/`t`/`p`, base64-decode
salt and hash rejecting empty results. -/
def decodeArgon2idHash (b64decode : String → Option (List Nat))
    (encoded : String) : Option (Argon2Params × List Nat × List Nat) :=
  match (splitChar '$' encoded.data).map String.mk with
  | [_, p1, p2, p3, p4, p5] =>
    if p1 ≠ "argon2id" then none
    else
      match splitChar '=' p2.data with
      | [v0, v1] =>
        if String.mk v0 ≠ "v" ∨ String.mk v1 ≠ "19" then none
        else
          match splitChar ',' p3.data with
          | [q0, q1, q2] =>
            match parseArgon2Param (String.mk q0) "m",
                parseArgon2Param (String.mk q1) "t",
                parseArgon2Param (String.mk q2) "p" with
            | some memory, some iterations, some parallelism =>
              match b64decode p4 with
              | none => none
              | some salt =>
                if salt = [] then none
                else
                  match b64decode p5 with
                  | none => none
                  | some hash =>
                    if hash = [] then none
                    else some (⟨memory, iterations, parallelism⟩, salt, hash)
            | _, _, _ => none
          | _ => none
      | _ => none
  | _ => none

/-- Go `HashPassword` with the random salt and the key-derivation function as
parameters: derive, base64-encode, and render the self-describing format
(`fmt.Sprintf` with the fixed parameters renders the literal prefix below). -/
def hashPassword (idKey : String → List Nat → Nat → Nat → Nat → Nat → List Nat)
    (b64encode : List Nat → String) (salt : List Nat) (password : String) :
    String :=
  let hash := idKey password salt argon2Iterations argon2Memory argon2Parallelism
    argon2KeyLength
  "$argon2id$v=19$m=65536,t=3,p=4$" ++ b64encode salt ++ "$" ++ b64encode hash

/-- Go `VerifyPassword`: decode, recompute with the embedded parameters and
the stored hash's length, compare (`none` models the `ErrInvalidPassword`
failure). -/
def verifyPassword (idKey : String → List Nat → Nat → Nat → Nat → Nat → List Nat)
    (b64decode : String → Option (List Nat)) (password encoded : String) :
    Option Bool :=
  match decodeArgon2idHash b64decode encoded with
  | none => none
  | some (params, salt, hash) =>
    some (idKey password salt params.iterations params.memory params.parallelism
      hash.length == hash)

/-- Splitting at a leading separator. -/
theorem splitChar_cons_self (sep : Char) (r : List Char) :
    splitChar sep (sep :: r) = [] :: splitChar sep r := by
  simp [splitChar]

/-- Splitting a separator-free prefix off. -/
theorem splitChar_append_sep (sep : Char) (l r : List Char) (hl : sep ∉ l) :
    splitChar sep (l ++ sep :: r) = l :: splitChar sep r := by
  induction l with
  | nil => simp [splitChar]
  | cons c cs ih =>
    have hc : ¬ (c = sep) := by rintro rfl; exact hl (List.mem_cons_self _ _)
    have ihh := ih (fun h => hl (List.mem_cons_of_mem _ h))
    simp [splitChar, hc, ihh]

/-- A separator-free string splits into itself. -/
theorem splitChar_of_not_mem (sep : Char) (l : List Char) (hl : sep ∉ l) :
    splitChar sep l = [l] := by
  induction l with
  | nil => rfl
  | cons c cs ih =>
    have hc : ¬ (c = sep) := by rintro rfl; exact hl (List.mem_cons_self _ _)
    have ihh := ih (fun h => hl (List.mem_cons_of_mem _ h))
    simp [splitChar, hc, ihh]

/-- The repository's parser inverts the repository's renderer: decoding a
`HashPassword` output recovers the fixed parameters, the salt and the derived
key — for any key-derivation function and any inverse pair of base64
functions whose output avoids `$` (as `RawStdEncoding`'s alphabet does). -/
theorem decodeArgon2idHash_hashPassword
    (idKey : String → List Nat → Nat → Nat → Nat → Nat → List Nat)
    (b64encode : List Nat → String) (b64decode : String → Option (List Nat))
    (hcodec : ∀ b, b64decode (b64encode b) = some b)
    (hdollar : ∀ b, '$' ∉ (b64encode b).data)
    (salt : List Nat) (password : String) (hsalt : salt ≠ [])
    (hkey : idKey password salt argon2Iterations argon2Memory argon2Parallelism
      argon2KeyLength ≠ []) :
    decodeArgon2idHash b64decode (hashPassword idKey b64encode salt password)
      = some (⟨argon2Memory, argon2Iterations, argon2Parallelism⟩, salt,
          idKey password salt argon2Iterations argon2Memory argon2Parallelism
            argon2KeyLength) := by
  have e1 : (hashPassword idKey b64encode salt password).data
      = "$argon2id$v=19$m=65536,t=3,p=4$".data ++
          ((b64encode salt).data ++ ("$".data ++
            (b64encode (idKey password salt argon2Iterations argon2Memory
              argon2Parallelism argon2KeyLength)).data)) := by
    simp only [hashPassword, String.data_append, List.append_assoc]
  have hsplit : splitChar '$' (hashPassword idKey b64encode salt password).data
      = [[], "argon2id".data, "v=19".data, "m=65536,t=3,p=4".data,
         (b64encode salt).data,
         (b64encode (idKey password salt argon2Iterations argon2Memory
           argon2Parallelism argon2KeyLength)).data] := by
    rw [e1]
    show splitChar '$'
        ('$' :: ("argon2id".data ++ '$' :: ("v=19".data ++ '$' ::
          ("m=65536,t=3,p=4".data ++ '$' ::
            ((b64encode salt).data ++ '$' ::
              (b64encode (idKey password salt argon2Iterations argon2Memory
                argon2Parallelism argon2KeyLength)).data))))) = _
    rw [splitChar_cons_self,
        splitChar_append_sep '$' "argon2id".data _ (by decide),
        splitChar_append_sep '$' "v=19".data _ (by decide),
        splitChar_append_sep '$' "m=65536,t=3,p=4".data _ (by decide),
        splitChar_append_sep '$' (b64encode salt).data _ (hdollar salt),
        splitChar_of_not_mem '$' _ (hdollar _)]
  have hparts : (splitChar '$'
        (hashPassword idKey b64encode salt password).data).map String.mk
      = ["", "argon2id", "v=19", "m=65536,t=3,p=4", b64encode salt,
         b64encode (idKey password salt argon2Iterations argon2Memory
           argon2Parallelism argon2KeyLength)] := by
    rw [hsplit]
    rfl
  unfold decodeArgon2idHash
  rw [hparts]
  have hv : splitChar '=' "v=19".data = ["v".data, "19".data] := by decide
  have hq : splitChar ',' "m=65536,t=3,p=4".data
      = ["m=65536".data, "t=3".data, "p=4".data] := by decide
  have hm : parseArgon2Param (String.mk "m=65536".data) "m" = some 65536 := by decide
  have ht : parseArgon2Param (String.mk "t=3".data) "t" = some 3 := by decide
  have hp : parseArgon2Param (String.mk "p=4".data) "p" = some 4 := by decide
  dsimp only
  rw [if_neg (by decide), hv]
  dsimp only
  rw [if_neg (by decide), hq]
  dsimp only
  rw [hm, ht, hp]
  dsimp only
  rw [hcodec salt]
  dsimp only
  rw [if_neg hsalt, hcodec _]
  dsimp only
  rw [if_neg hkey]
  exact rfl

/-- `VerifyPassword` against a `HashPassword` output reduces to the equality
of the two derived keys: the whole of C4 beyond the repository's own code is
whether `argon2.IDKey` separates the two passwords at this salt. -/
theorem verifyPassword_eq_keyComparison
    (idKey : String → List Nat → Nat → Nat → Nat → Nat → List Nat)
    (b64encode : List Nat → String) (b64decode : String → Option (List Nat))
    (hcodec : ∀ b, b64decode (b64encode b) = some b)
    (hdollar : ∀ b, '$' ∉ (b64encode b).data)
    (salt : List Nat) (p q : String) (hsalt : salt ≠ [])
    (hlen : (idKey p salt argon2Iterations argon2Memory argon2Parallelism
      argon2KeyLength).length = argon2KeyLength) :
    verifyPassword idKey b64decode q (hashPassword idKey b64encode salt p)
      = some (idKey q salt argon2Iterations argon2Memory argon2Parallelism
          argon2KeyLength
        == idKey p salt argon2Iterations argon2Memory argon2Parallelism
          argon2KeyLength) := by
  have hkey : idKey p salt argon2Iterations argon2Memory argon2Parallelism
      argon2KeyLength ≠ [] := by
    intro h
    rw [h] at hlen
    simp [argon2KeyLength] at hlen
  unfold verifyPassword
  rw [decodeArgon2idHash_hashPassword idKey b64encode b64decode hcodec hdollar
    salt p hsalt hkey]
  dsimp only
  rw [hlen]

/-- The positive half of C4, for any key-derivation function: a password
verifies against its own fresh hash. -/
theorem verifyPassword_roundtrip
    (idKey : String → List Nat → Nat → Nat → Nat → Nat → List Nat)
    (b64encode : List Nat → String) (b64decode : String → Option (List Nat))
    (hcodec : ∀ b, b64decode (b64encode b) = some b)
    (hdollar : ∀ b, '$' ∉ (b64encode b).data)
    (salt : List Nat) (password : String) (hsalt : salt ≠ [])
    (hlen : (idKey password salt argon2Iterations argon2Memory argon2Parallelism
      argon2KeyLength).length = argon2KeyLength) :
    verifyPassword idKey b64decode password (hashPassword idKey b64encode salt password)
      = some true := by
  rw [verifyPassword_eq_keyComparison idKey b64encode b64decode hcodec hdollar
    salt password password hsalt hlen]
  simp

end Starter
